import Mathlib

/-!
Verification of the recipe-management backend's data/ownership model.

The repository ships only the API test suites and the user-facing URL
routing; the model layer (user manager, tag/ingredient catalogs, recipe
store, nested-resource reconciler) is embedded here from the written
specification, with the test suites fixing the observable behaviour
(status codes, ordering, find-or-create semantics).  Strings are Lean
`String`s, database rows are entries of in-memory lists, ids are `Nat`s
handed out by per-table counters, and each API operation is a pure
function from an `AppState` (plus request data) to a result paired with
the successor state; an error result is always paired with the unchanged
state, reflecting the spec's "no partial-success responses" rule.
-/

namespace RecipeApp

/-- Modelled from the spec: a User Store account record {id, email
(normalized), password (hashed), name}.  `is_active`/`is_staff` are
omitted: no verified property touches them. -/
structure User where
  id : Nat
  email : String
  passwordHash : String
  name : String
  deriving Repr, DecidableEq

/-- Modelled from the spec: a Tag or Ingredient catalog record
{id, name, owner}.  The two catalogs are structurally identical, so one
record type serves both tables. -/
structure CatalogItem where
  id : Nat
  user : Nat
  name : String
  deriving Repr, DecidableEq

/-- Modelled from the spec: a Recipe record.  `priceCents` is the
fixed-point price scaled by 100 (two implied fraction digits); `image`
is the optional stored blob (byte list); `tags`/`ingredients` hold the
ids of associated catalog rows. -/
structure Recipe where
  id : Nat
  user : Nat
  title : String
  timeMinutes : Nat
  priceCents : Nat
  description : String
  link : String
  image : Option (List Nat)
  tags : List Nat
  ingredients : List Nat
  deriving Repr, DecidableEq

/-- Modelled from the spec: the whole persistent store — user rows,
token rows (user id paired with token string), both catalogs, recipe
rows, and the id counters that model monotonic primary-key assignment. -/
structure AppState where
  users : List User
  tokens : List (Nat × String)
  tags : List CatalogItem
  ingredients : List CatalogItem
  recipes : List Recipe
  nextUserId : Nat
  nextTagId : Nat
  nextIngredientId : Nat
  nextRecipeId : Nat
  nextTokenNum : Nat
  deriving Repr, DecidableEq

/-- Decidable equality of API results, so that concrete runs of the
model can be checked by evaluation. -/
instance {ε α : Type} [DecidableEq ε] [DecidableEq α] :
    DecidableEq (Except ε α)
  | Except.ok x, Except.ok y =>
    if h : x = y then isTrue (by rw [h]) else isFalse (by simp [h])
  | Except.ok _, Except.error _ => isFalse (by simp)
  | Except.error _, Except.ok _ => isFalse (by simp)
  | Except.error e1, Except.error e2 =>
    if h : e1 = e2 then isTrue (by rw [h]) else isFalse (by simp [h])

/-- Modelled from the spec: password hashing, abstracted as an injective
encoding; `check_password` is equality of hashes. -/
def hashPassword (p : String) : String := "hashed:" ++ p

/-- Modelled from the spec: split a character list at its LAST '@' into
(local part, domain part); `none` when no '@' occurs. -/
def splitLocalDomain : List Char → Option (List Char × List Char)
  | [] => none
  | c :: rest =>
    match splitLocalDomain rest with
    | some (loc, dom) => some (c :: loc, dom)
    | none => if c = '@' then some ([], rest) else none

/-- Modelled from the spec: "Email must contain `@` and a domain with at
least one `.`". -/
def validEmail (e : String) : Bool :=
  match splitLocalDomain e.data with
  | some (_, dom) => decide ('.' ∈ dom)
  | none => false

/-- Modelled from the spec: "Email is stored with the local part as
given and domain part lowercased". -/
def normalizeEmail (e : String) : String :=
  match splitLocalDomain e.data with
  | some (loc, dom) => String.mk (loc ++ '@' :: dom.map Char.toLower)
  | none => e

/-- Modelled from the spec: the `register` error taxonomy; every
constructor surfaces over HTTP as a 400 validation error. -/
inductive RegisterError where
  | invalidEmail
  | weakPassword
  | emailTaken
  deriving Repr, DecidableEq

/-- Modelled from the spec: `register(email, password, name)` — reject
an invalid email or a password shorter than 5, reject an email whose
normalized form is already taken, else append a user row storing the
normalized email and the password hash.  Errors leave the store
untouched. -/
def register (s : AppState) (email password name : String) :
    Except RegisterError User × AppState :=
  if validEmail email = false then (Except.error RegisterError.invalidEmail, s)
  else if password.length < 5 then (Except.error RegisterError.weakPassword, s)
  else
    let ne := normalizeEmail email
    if s.users.any (fun u => u.email == ne) then
      (Except.error RegisterError.emailTaken, s)
    else
      let u : User := ⟨s.nextUserId, ne, hashPassword password, name⟩
      (Except.ok u,
       { s with users := s.users ++ [u], nextUserId := s.nextUserId + 1 })

/-- Modelled from the spec: opaque token text minted from the token
counter. -/
def mkToken (n : Nat) : String := "token-" ++ toString n

/-- Modelled from the spec: `authenticate(email, password)` — on a
credential match, reuse the user's existing token row if one exists,
else mint and append a fresh one (1:1 token-per-user issuance); on a
mismatch return no token and leave the store untouched. -/
def authenticate (s : AppState) (email password : String) :
    Option String × AppState :=
  match s.users.find? (fun u => u.email == email
      && u.passwordHash == hashPassword password) with
  | none => (none, s)
  | some u =>
    match s.tokens.find? (fun t => t.1 == u.id) with
    | some t => (some t.2, s)
    | none =>
      let tok := mkToken s.nextTokenNum
      (some tok,
       { s with tokens := s.tokens ++ [(u.id, tok)],
                nextTokenNum := s.nextTokenNum + 1 })

/-- Modelled from the spec: the JSON body of a successful
`POST /user/create/` — `201 {id, email, name}`; the password is stored
hashed and never echoed. -/
def userCreateResponse (u : User) : List (String × String) :=
  [("id", toString u.id), ("email", u.email), ("name", u.name)]

/-- Modelled from the spec: the `POST /user/create/` endpoint — 201 with
the {id, email, name} body on success, 400 with an empty body on any
validation failure. -/
def createUserEndpoint (s : AppState) (email password name : String) :
    (Nat × List (String × String)) × AppState :=
  match register s email password name with
  | (Except.ok u, s2) => ((201, userCreateResponse u), s2)
  | (Except.error _, s2) => ((400, []), s2)

/-- Modelled from the spec: API error taxonomy for the authenticated
resource endpoints. -/
inductive ApiError where
  | notFound
  | badRequest
  deriving Repr, DecidableEq

/-- Modelled from the spec: HTTP status of each API error — NotFound
(id absent or not owned by the caller) surfaces as 404, a validation
failure as 400. -/
def ApiError.status : ApiError → Nat
  | ApiError.notFound => 404
  | ApiError.badRequest => 400

/-- Modelled from the spec: one find-or-create step of the
Nested-Resource Reconciler — look up a catalog record with the given
owner and exact (case-sensitive) name; reuse its id if found, else
append a fresh record {nextId, owner, name}.  Returns (resolved id,
catalog, next free id). -/
def getOrCreate (cat : List CatalogItem) (nextId owner : Nat) (nm : String) :
    Nat × List CatalogItem × Nat :=
  match cat.find? (fun t => t.user == owner && t.name == nm) with
  | some t => (t.id, cat, nextId)
  | none => (nextId, cat ++ [⟨nextId, owner, nm⟩], nextId + 1)

/-- Modelled from the spec: the Nested-Resource Reconciler — resolve
each inline name in order through `getOrCreate`, threading the growing
catalog, and return (resolved ids, catalog, next free id). -/
def reconcile (cat : List CatalogItem) (nextId owner : Nat) :
    List String → List Nat × List CatalogItem × Nat
  | [] => ([], cat, nextId)
  | nm :: rest =>
    let r1 := getOrCreate cat nextId owner nm
    let r2 := reconcile r1.2.1 r1.2.2 owner rest
    (r1.1 :: r2.1, r2.2.1, r2.2.2)

/-- Modelled from the spec: a recipe-create payload — required title /
time / price, optional description, link, and inline tag / ingredient
name lists (`none` = key absent). -/
structure RecipePayload where
  title : String
  timeMinutes : Nat
  priceCents : Nat
  description : Option String
  link : Option String
  tags : Option (List String)
  ingredients : Option (List String)
  deriving Repr, DecidableEq

/-- Modelled from the spec: a recipe-update payload; every key is
optional (`none` = key absent, "do not touch").  The `user` key models
an attempted owner change, which the update contract ignores. -/
structure RecipeUpdatePayload where
  title : Option String
  timeMinutes : Option Nat
  priceCents : Option Nat
  description : Option String
  link : Option String
  user : Option Nat
  tags : Option (List String)
  ingredients : Option (List String)
  deriving Repr, DecidableEq

/-- Modelled from the spec: `create(owner, payload)` — reconcile the
inline tag and ingredient lists (an absent key behaves as an empty
list on create), then append the new recipe owned by the caller and
associated with exactly the resolved id sets. -/
def createRecipe (s : AppState) (owner : Nat) (p : RecipePayload) :
    Recipe × AppState :=
  let rt := reconcile s.tags s.nextTagId owner (p.tags.getD [])
  let ri := reconcile s.ingredients s.nextIngredientId owner (p.ingredients.getD [])
  let r : Recipe :=
    { id := s.nextRecipeId, user := owner, title := p.title,
      timeMinutes := p.timeMinutes, priceCents := p.priceCents,
      description := p.description.getD "", link := p.link.getD "",
      image := none, tags := rt.1.dedup, ingredients := ri.1.dedup }
  (r, { s with tags := rt.2.1, nextTagId := rt.2.2,
               ingredients := ri.2.1, nextIngredientId := ri.2.2,
               recipes := s.recipes ++ [r],
               nextRecipeId := s.nextRecipeId + 1 })

/-- Modelled from the spec: `retrieve(owner, id)` — the detail lookup is
scoped to rows owned by the caller; anything else is NotFound (404). -/
def retrieveRecipe (s : AppState) (caller rid : Nat) : Except ApiError Recipe :=
  match s.recipes.find? (fun r => r.id == rid && r.user == caller) with
  | some r => Except.ok r
  | none => Except.error ApiError.notFound

/-- Modelled from the spec: `update(owner, id, payload)` — NotFound when
no caller-owned row has the id; otherwise apply the provided scalar
fields, reconcile each PRESENT tag / ingredient key into a full
replacement of that association set, keep the owner fixed (the payload's
`user` key is never read), and write the updated row back. -/
def updateRecipe (s : AppState) (caller rid : Nat) (p : RecipeUpdatePayload) :
    Except ApiError Recipe × AppState :=
  match s.recipes.find? (fun r => r.id == rid && r.user == caller) with
  | none => (Except.error ApiError.notFound, s)
  | some r =>
    let rt := match p.tags with
      | some names =>
        let q := reconcile s.tags s.nextTagId caller names
        (q.1.dedup, q.2.1, q.2.2)
      | none => (r.tags, s.tags, s.nextTagId)
    let ri := match p.ingredients with
      | some names =>
        let q := reconcile s.ingredients s.nextIngredientId caller names
        (q.1.dedup, q.2.1, q.2.2)
      | none => (r.ingredients, s.ingredients, s.nextIngredientId)
    let r2 : Recipe :=
      { r with
        title := p.title.getD r.title,
        timeMinutes := p.timeMinutes.getD r.timeMinutes,
        priceCents := p.priceCents.getD r.priceCents,
        description := p.description.getD r.description,
        link := p.link.getD r.link,
        tags := rt.1, ingredients := ri.1 }
    (Except.ok r2,
     { s with
       recipes := s.recipes.map
         (fun x => if x.id == rid && x.user == caller then r2 else x),
       tags := rt.2.1, nextTagId := rt.2.2,
       ingredients := ri.2.1, nextIngredientId := ri.2.2 })

/-- Modelled from the spec: `delete(owner, id)` — NotFound when no
caller-owned row has the id; otherwise remove the row. -/
def deleteRecipe (s : AppState) (caller rid : Nat) :
    Except ApiError Unit × AppState :=
  match s.recipes.find? (fun r => r.id == rid && r.user == caller) with
  | none => (Except.error ApiError.notFound, s)
  | some _ =>
    (Except.ok (),
     { s with recipes :=
        s.recipes.filter (fun r => !(r.id == rid && r.user == caller)) })

/-- Modelled from the spec: `list(owner)` for recipes — the caller's
rows ordered by id descending (most recently created first). -/
def listRecipes (s : AppState) (caller : Nat) : List Recipe :=
  (s.recipes.filter (fun r => r.user == caller)).mergeSort
    (fun a b => decide (b.id ≤ a.id))

/-- Modelled from the spec: `list(owner)` for a catalog — the owner's
rows ordered by name descending (reverse lexical order). -/
def catalogList (cat : List CatalogItem) (owner : Nat) : List CatalogItem :=
  (cat.filter (fun t => t.user == owner)).mergeSort
    (fun a b => decide (b.name ≤ a.name))

/-- Modelled from the spec: catalog `retrieve` scoped to caller-owned
rows. -/
def catalogRetrieve (cat : List CatalogItem) (caller cid : Nat) :
    Except ApiError CatalogItem :=
  match cat.find? (fun t => t.id == cid && t.user == caller) with
  | some t => Except.ok t
  | none => Except.error ApiError.notFound

/-- Modelled from the spec: catalog `update(owner, id, name)` — NotFound
if the id does not belong to the caller, else rename the row. -/
def catalogUpdate (cat : List CatalogItem) (caller cid : Nat) (nm : String) :
    Except ApiError CatalogItem × List CatalogItem :=
  match cat.find? (fun t => t.id == cid && t.user == caller) with
  | none => (Except.error ApiError.notFound, cat)
  | some t =>
    let t2 : CatalogItem := { t with name := nm }
    (Except.ok t2,
     cat.map (fun x => if x.id == cid && x.user == caller then t2 else x))

/-- Modelled from the spec: catalog `delete(owner, id)` — NotFound if
the id does not belong to the caller, else remove the row. -/
def catalogDelete (cat : List CatalogItem) (caller cid : Nat) :
    Except ApiError Unit × List CatalogItem :=
  match cat.find? (fun t => t.id == cid && t.user == caller) with
  | none => (Except.error ApiError.notFound, cat)
  | some _ =>
    (Except.ok (), cat.filter (fun x => !(x.id == cid && x.user == caller)))

/-- Tag-table instance of the catalog list endpoint. -/
def listTags (s : AppState) (caller : Nat) : List CatalogItem :=
  catalogList s.tags caller

/-- Ingredient-table instance of the catalog list endpoint. -/
def listIngredients (s : AppState) (caller : Nat) : List CatalogItem :=
  catalogList s.ingredients caller

/-- Tag-table instance of the catalog retrieve endpoint. -/
def retrieveTag (s : AppState) (caller cid : Nat) : Except ApiError CatalogItem :=
  catalogRetrieve s.tags caller cid

/-- Ingredient-table instance of the catalog retrieve endpoint. -/
def retrieveIngredient (s : AppState) (caller cid : Nat) :
    Except ApiError CatalogItem :=
  catalogRetrieve s.ingredients caller cid

/-- Tag-table instance of the catalog update endpoint. -/
def updateTag (s : AppState) (caller cid : Nat) (nm : String) :
    Except ApiError CatalogItem × AppState :=
  let r := catalogUpdate s.tags caller cid nm
  (r.1, { s with tags := r.2 })

/-- Ingredient-table instance of the catalog update endpoint. -/
def updateIngredient (s : AppState) (caller cid : Nat) (nm : String) :
    Except ApiError CatalogItem × AppState :=
  let r := catalogUpdate s.ingredients caller cid nm
  (r.1, { s with ingredients := r.2 })

/-- Tag-table instance of the catalog delete endpoint. -/
def deleteTag (s : AppState) (caller cid : Nat) :
    Except ApiError Unit × AppState :=
  let r := catalogDelete s.tags caller cid
  (r.1, { s with tags := r.2 })

/-- Ingredient-table instance of the catalog delete endpoint. -/
def deleteIngredient (s : AppState) (caller cid : Nat) :
    Except ApiError Unit × AppState :=
  let r := catalogDelete s.ingredients caller cid
  (r.1, { s with ingredients := r.2 })

/-- Modelled from the spec: `uploadImage(owner, id, file)` — NotFound
outside the caller's rows; a payload rejected by the raster-image
validator yields InvalidImage (400) and leaves the store untouched; a
valid payload replaces any prior image blob on the recipe.  Image
validity itself is an external collaborator, passed in as the predicate
`vi`. -/
def uploadImage (s : AppState) (vi : List Nat → Bool) (caller rid : Nat)
    (payload : List Nat) : Except ApiError Recipe × AppState :=
  match s.recipes.find? (fun r => r.id == rid && r.user == caller) with
  | none => (Except.error ApiError.notFound, s)
  | some r =>
    if vi payload then
      let r2 : Recipe := { r with image := some payload }
      let rs := s.recipes.map
        (fun x => if x.id == rid && x.user == caller then r2 else x)
      (Except.ok r2, { s with recipes := rs })
    else (Except.error ApiError.badRequest, s)

/-- Outcome contract of one reconciler pass: every requested name ends
up resolved to an owner-owned row of that exact name associated to the
recipe; a (owner, name) pair gains a row exactly when the owner had none
and the name was requested; and no row outside the owner's requested
names is ever created. -/
def FindOrCreateOutcome (before after : List CatalogItem) (assoc : List Nat)
    (owner : Nat) (names : List String) : Prop :=
  (∀ nm ∈ names, ∃ t, t ∈ after ∧ t.user = owner ∧ t.name = nm ∧ t.id ∈ assoc) ∧
  (∀ nm, after.countP (fun t => t.user == owner && t.name == nm) =
      if before.countP (fun t => t.user == owner && t.name == nm) = 0 ∧ nm ∈ names
      then 1
      else before.countP (fun t => t.user == owner && t.name == nm)) ∧
  (∀ t ∈ after, t ∈ before ∨ (t.user = owner ∧ t.name ∈ names))

/-! ### Helper lemmas -/

theorem catalogList_perm (cat : List CatalogItem) (o : Nat) :
    (catalogList cat o).Perm (cat.filter (fun t => t.user == o)) :=
  List.mergeSort_perm _ _

theorem catalogList_sorted (cat : List CatalogItem) (o : Nat) :
    List.Sorted (fun x y : CatalogItem => y.name ≤ x.name) (catalogList cat o) := by
  have h := @List.sorted_mergeSort CatalogItem
    (fun a b : CatalogItem => decide (b.name ≤ a.name))
    (fun a b c hab hbc => by
      simp only [decide_eq_true_eq] at *
      exact le_trans hbc hab)
    (fun a b => by
      simp only [Bool.or_eq_true, decide_eq_true_eq]
      exact le_total b.name a.name)
    (cat.filter (fun t => t.user == o))
  exact h.imp (fun hab => of_decide_eq_true hab)

/-! ### C5, C6, C8, C10 -/

/-- C5: a registration whose password is shorter than 5 characters fails
with a 400 validation error and leaves the user store unchanged — no
user row is created by the failed attempt. -/
theorem register_short_password_rejected (s : AppState) (em pw nm : String)
    (h : pw.length < 5) :
    (createUserEndpoint s em pw nm).1.1 = 400 ∧
    (createUserEndpoint s em pw nm).2 = s ∧
    (register s em pw nm = (Except.error RegisterError.weakPassword, s) ∨
     register s em pw nm = (Except.error RegisterError.invalidEmail, s)) := by
  by_cases hv : validEmail em = false
  · simp [createUserEndpoint, register, hv]
  · simp [createUserEndpoint, register, hv, h]

/-- C5 witness: the concrete 2-character password "pw" is rejected with
a 400 and the empty store is left untouched. -/
theorem register_short_password_rejected_witness :
    ("pw".length < 5) ∧
    ((createUserEndpoint ⟨[], [], [], [], [], 0, 0, 0, 0, 0⟩
        "test@example.com" "pw" "Test Name").1.1 = 400 ∧
     (createUserEndpoint ⟨[], [], [], [], [], 0, 0, 0, 0, 0⟩
        "test@example.com" "pw" "Test Name").2 = ⟨[], [], [], [], [], 0, 0, 0, 0, 0⟩ ∧
     (register ⟨[], [], [], [], [], 0, 0, 0, 0, 0⟩ "test@example.com" "pw" "Test Name" =
        (Except.error RegisterError.weakPassword, ⟨[], [], [], [], [], 0, 0, 0, 0, 0⟩) ∨
      register ⟨[], [], [], [], [], 0, 0, 0, 0, 0⟩ "test@example.com" "pw" "Test Name" =
        (Except.error RegisterError.invalidEmail, ⟨[], [], [], [], [], 0, 0, 0, 0, 0⟩))) :=
  ⟨by decide,
   register_short_password_rejected ⟨[], [], [], [], [], 0, 0, 0, 0, 0⟩
     "test@example.com" "pw" "Test Name" (by decide)⟩

/-- C6: a successful authenticate call is idempotent — repeating it with
the same credentials returns the same token and the same store — and it
preserves the at-most-one-token-row-per-user invariant. -/
theorem authenticate_token_idempotent (s : AppState) (em pw tok : String)
    (s1 : AppState) (h : authenticate s em pw = (some tok, s1)) :
    authenticate s1 em pw = (some tok, s1) ∧
    ∀ uid : Nat, s.tokens.countP (fun t => t.1 == uid) ≤ 1 →
      s1.tokens.countP (fun t => t.1 == uid) ≤ 1 := by
  unfold authenticate at h
  cases hu : s.users.find?
      (fun u => u.email == em && u.passwordHash == hashPassword pw) with
  | none => rw [hu] at h; simp at h
  | some u =>
    rw [hu] at h
    dsimp only at h
    cases ht : s.tokens.find? (fun t => t.1 == u.id) with
    | some t =>
      rw [ht] at h
      simp only [Prod.mk.injEq, Option.some.injEq] at h
      obtain ⟨h1, h2⟩ := h
      subst h2
      constructor
      · unfold authenticate
        rw [hu]
        dsimp only
        rw [ht]
        dsimp only
        rw [h1]
      · intro uid hle
        exact hle
    | none =>
      rw [ht] at h
      simp only [Prod.mk.injEq, Option.some.injEq] at h
      obtain ⟨h1, h2⟩ := h
      have husers : s1.users = s.users := by rw [← h2]
      have htokens : s1.tokens = s.tokens ++ [(u.id, tok)] := by rw [← h2, h1]
      constructor
      · unfold authenticate
        rw [husers, hu]
        dsimp only
        rw [htokens, List.find?_append, ht, Option.none_or]
        simp
      · intro uid hle
        rw [htokens, List.countP_append]
        by_cases huid : u.id = uid
        · have hzero : s.tokens.countP (fun t => t.1 == uid) = 0 := by
            apply List.countP_eq_zero.mpr
            intro x hx
            have := List.find?_eq_none.mp ht x hx
            simpa [huid] using this
          simp [hzero, List.countP_cons, huid]
        · have : (((u.id, tok).1 == uid)) = false := by
            simp [huid]
          simpa [List.countP_cons, this] using hle

/-- C6 witness: on a store holding one registered user and no tokens,
authenticating mints "token-0" and authenticating again returns the very
same token and store. -/
theorem authenticate_token_idempotent_witness :
    (authenticate
        ⟨[⟨0, "a@b.com", hashPassword "pass123", "N"⟩], [], [], [], [], 1, 0, 0, 0, 0⟩
        "a@b.com" "pass123" =
      (some "token-0",
       ⟨[⟨0, "a@b.com", hashPassword "pass123", "N"⟩], [(0, "token-0")],
        [], [], [], 1, 0, 0, 0, 1⟩)) ∧
    (authenticate
        ⟨[⟨0, "a@b.com", hashPassword "pass123", "N"⟩], [(0, "token-0")],
         [], [], [], 1, 0, 0, 0, 1⟩
        "a@b.com" "pass123" =
      (some "token-0",
       ⟨[⟨0, "a@b.com", hashPassword "pass123", "N"⟩], [(0, "token-0")],
        [], [], [], 1, 0, 0, 0, 1⟩) ∧
     ∀ uid : Nat,
       List.countP (fun t => t.1 == uid)
           ([] : List (Nat × String)) ≤ 1 →
       List.countP (fun t => t.1 == uid) [(0, "token-0")] ≤ 1) :=
  ⟨by decide,
   authenticate_token_idempotent
     ⟨[⟨0, "a@b.com", hashPassword "pass123", "N"⟩], [], [], [], [], 1, 0, 0, 0, 0⟩
     "a@b.com" "pass123" "token-0"
     ⟨[⟨0, "a@b.com", hashPassword "pass123", "N"⟩], [(0, "token-0")],
      [], [], [], 1, 0, 0, 0, 1⟩
     (by decide)⟩

/-- C8: for every owner, the tag and ingredient list endpoints return
exactly the owner's rows (a permutation of the owner-filtered table),
ordered by name descending. -/
theorem catalog_lists_name_descending (s : AppState) (o : Nat) :
    (listTags s o).Perm (s.tags.filter (fun t => t.user == o)) ∧
    List.Sorted (fun x y : CatalogItem => y.name ≤ x.name) (listTags s o) ∧
    (listIngredients s o).Perm (s.ingredients.filter (fun t => t.user == o)) ∧
    List.Sorted (fun x y : CatalogItem => y.name ≤ x.name) (listIngredients s o) :=
  ⟨catalogList_perm s.tags o, catalogList_sorted s.tags o,
   catalogList_perm s.ingredients o, catalogList_sorted s.ingredients o⟩

/-- C10: whenever user creation answers 201, the response body carries
no "password" key — only id, email and name are echoed. -/
theorem create_user_response_omits_password (s : AppState) (em pw nm : String)
    (h : (createUserEndpoint s em pw nm).1.1 = 201) :
    "password" ∉ (createUserEndpoint s em pw nm).1.2.map Prod.fst := by
  rcases hreg : register s em pw nm with ⟨res, s2⟩
  cases res with
  | ok u =>
    simp [createUserEndpoint, hreg, userCreateResponse]
  | error e =>
    rw [createUserEndpoint, hreg] at h
    simp at h

/-- C10 witness: a concrete successful registration answers 201 and its
body keys exclude "password". -/
theorem create_user_response_omits_password_witness :
    ((createUserEndpoint ⟨[], [], [], [], [], 0, 0, 0, 0, 0⟩
        "test@example.com" "pass123" "Test Name").1.1 = 201) ∧
    "password" ∉ (createUserEndpoint ⟨[], [], [], [], [], 0, 0, 0, 0, 0⟩
        "test@example.com" "pass123" "Test Name").1.2.map Prod.fst :=
  ⟨by decide,
   create_user_response_omits_password ⟨[], [], [], [], [], 0, 0, 0, 0, 0⟩
     "test@example.com" "pass123" "Test Name" (by decide)⟩

/-- A row of the written-back recipe table that still carries the
updated row's id and owner is the updated row itself. -/
theorem updated_row_eq (r2 : Recipe) (rid caller : Nat) (l : List Recipe)
    (r3 : Recipe)
    (h : r3 ∈ l.map (fun x => if x.id == rid && x.user == caller then r2 else x))
    (hid : r3.id = rid) (huser : r3.user = caller) : r3 = r2 := by
  rcases List.mem_map.mp h with ⟨x, _, hmap⟩
  by_cases hcond : (x.id == rid && x.user == caller) = true
  · rw [if_pos hcond] at hmap
    exact hmap.symm
  · rw [if_neg hcond] at hmap
    subst hmap
    exact absurd (by simp [hid, huser]) hcond

/-! ### C3, C7, C9 -/

/-- C3: a recipe update whose payload carries the tags key with an empty
list (resp. the ingredients key) succeeds and leaves the recipe — both
the returned recipe and the stored row — with zero associations of that
type, regardless of prior state: the resolved set fully replaces the
prior association set. -/
theorem update_empty_list_clears_associations (s : AppState) (caller rid : Nat)
    (p : RecipeUpdatePayload) (r0 : Recipe)
    (hfound : s.recipes.find? (fun r => r.id == rid && r.user == caller) = some r0) :
    ∃ r2, (updateRecipe s caller rid p).1 = Except.ok r2 ∧
      (p.tags = some [] → r2.tags = [] ∧
        ∀ r3 ∈ (updateRecipe s caller rid p).2.recipes,
          r3.id = rid → r3.user = caller → r3.tags = []) ∧
      (p.ingredients = some [] → r2.ingredients = [] ∧
        ∀ r3 ∈ (updateRecipe s caller rid p).2.recipes,
          r3.id = rid → r3.user = caller → r3.ingredients = []) := by
  unfold updateRecipe
  rw [hfound]
  dsimp only
  refine ⟨_, rfl, ?_, ?_⟩
  · intro htags
    rw [htags]
    dsimp only [reconcile, List.dedup_nil]
    refine ⟨rfl, ?_⟩
    intro r3 hr3 hid huser
    rw [updated_row_eq _ rid caller s.recipes r3 hr3 hid huser]
  · intro hing
    rw [hing]
    dsimp only [reconcile, List.dedup_nil]
    refine ⟨rfl, ?_⟩
    intro r3 hr3 hid huser
    rw [updated_row_eq _ rid caller s.recipes r3 hr3 hid huser]

/-- C3 witness: clearing the tag and ingredient associations of a stored
recipe that has one of each. -/
theorem update_empty_list_clears_associations_witness :
    (List.find? (fun r => r.id == 3 && r.user == 7)
        [(⟨3, 7, "T", 1, 100, "", "", none, [5], [4]⟩ : Recipe)] =
      some ⟨3, 7, "T", 1, 100, "", "", none, [5], [4]⟩) ∧
    ∃ r2,
      (updateRecipe
          ⟨[], [], [⟨5, 7, "Lunch"⟩], [⟨4, 7, "Pork"⟩],
           [⟨3, 7, "T", 1, 100, "", "", none, [5], [4]⟩], 0, 6, 5, 4, 0⟩
          7 3 ⟨none, none, none, none, none, none, some [], some []⟩).1 =
        Except.ok r2 ∧
      ((⟨none, none, none, none, none, none, some [], some []⟩ :
          RecipeUpdatePayload).tags = some [] → r2.tags = [] ∧
        ∀ r3 ∈ (updateRecipe
            ⟨[], [], [⟨5, 7, "Lunch"⟩], [⟨4, 7, "Pork"⟩],
             [⟨3, 7, "T", 1, 100, "", "", none, [5], [4]⟩], 0, 6, 5, 4, 0⟩
            7 3 ⟨none, none, none, none, none, none, some [], some []⟩).2.recipes,
          r3.id = 3 → r3.user = 7 → r3.tags = []) ∧
      ((⟨none, none, none, none, none, none, some [], some []⟩ :
          RecipeUpdatePayload).ingredients = some [] → r2.ingredients = [] ∧
        ∀ r3 ∈ (updateRecipe
            ⟨[], [], [⟨5, 7, "Lunch"⟩], [⟨4, 7, "Pork"⟩],
             [⟨3, 7, "T", 1, 100, "", "", none, [5], [4]⟩], 0, 6, 5, 4, 0⟩
            7 3 ⟨none, none, none, none, none, none, some [], some []⟩).2.recipes,
          r3.id = 3 → r3.user = 7 → r3.ingredients = []) :=
  ⟨by decide,
   update_empty_list_clears_associations
     ⟨[], [], [⟨5, 7, "Lunch"⟩], [⟨4, 7, "Pork"⟩],
      [⟨3, 7, "T", 1, 100, "", "", none, [5], [4]⟩], 0, 6, 5, 4, 0⟩
     7 3 ⟨none, none, none, none, none, none, some [], some []⟩
     ⟨3, 7, "T", 1, 100, "", "", none, [5], [4]⟩ (by decide)⟩

/-- C7: a recipe update whose payload carries a different owner under
the user key still succeeds; the owner field is ignored — the returned
recipe and the stored row keep the original owner — while every other
provided scalar field is applied. -/
theorem update_ignores_owner_field (s : AppState) (caller rid newOwner : Nat)
    (p : RecipeUpdatePayload) (r0 : Recipe)
    (hfound : s.recipes.find? (fun r => r.id == rid && r.user == caller) = some r0)
    (_howner : p.user = some newOwner) (_hdiff : newOwner ≠ r0.user) :
    ∃ r2, (updateRecipe s caller rid p).1 = Except.ok r2 ∧
      r2.user = r0.user ∧
      (∀ v, p.title = some v → r2.title = v) ∧
      (∀ v, p.timeMinutes = some v → r2.timeMinutes = v) ∧
      (∀ v, p.priceCents = some v → r2.priceCents = v) ∧
      (∀ v, p.description = some v → r2.description = v) ∧
      (∀ v, p.link = some v → r2.link = v) ∧
      ∀ r3 ∈ (updateRecipe s caller rid p).2.recipes,
        r3.id = rid → r3.user = caller → r3 = r2 := by
  unfold updateRecipe
  rw [hfound]
  dsimp only
  refine ⟨_, rfl, rfl, ?_, ?_, ?_, ?_, ?_, ?_⟩
  · intro v hv; rw [hv]; rfl
  · intro v hv; rw [hv]; rfl
  · intro v hv; rw [hv]; rfl
  · intro v hv; rw [hv]; rfl
  · intro v hv; rw [hv]; rfl
  · intro r3 hr3 hid huser
    exact updated_row_eq _ rid caller s.recipes r3 hr3 hid huser

/-- C7 witness: a PATCH carrying a new title and an attempted owner
change to user 9 keeps the recipe owned by user 7 and applies the
title. -/
theorem update_ignores_owner_field_witness :
    (List.find? (fun r => r.id == 3 && r.user == 7)
        [(⟨3, 7, "T", 1, 100, "", "", none, [], []⟩ : Recipe)] =
      some ⟨3, 7, "T", 1, 100, "", "", none, [], []⟩) ∧
    ((⟨some "New", none, none, none, none, some 9, none, none⟩ :
        RecipeUpdatePayload).user = some 9) ∧
    ((9 : Nat) ≠ (⟨3, 7, "T", 1, 100, "", "", none, [], []⟩ : Recipe).user) ∧
    ∃ r2,
      (updateRecipe
          ⟨[], [], [], [], [⟨3, 7, "T", 1, 100, "", "", none, [], []⟩],
           0, 0, 0, 4, 0⟩
          7 3 ⟨some "New", none, none, none, none, some 9, none, none⟩).1 =
        Except.ok r2 ∧
      r2.user = (⟨3, 7, "T", 1, 100, "", "", none, [], []⟩ : Recipe).user ∧
      (∀ v, (⟨some "New", none, none, none, none, some 9, none, none⟩ :
          RecipeUpdatePayload).title = some v → r2.title = v) ∧
      (∀ v, (⟨some "New", none, none, none, none, some 9, none, none⟩ :
          RecipeUpdatePayload).timeMinutes = some v → r2.timeMinutes = v) ∧
      (∀ v, (⟨some "New", none, none, none, none, some 9, none, none⟩ :
          RecipeUpdatePayload).priceCents = some v → r2.priceCents = v) ∧
      (∀ v, (⟨some "New", none, none, none, none, some 9, none, none⟩ :
          RecipeUpdatePayload).description = some v → r2.description = v) ∧
      (∀ v, (⟨some "New", none, none, none, none, some 9, none, none⟩ :
          RecipeUpdatePayload).link = some v → r2.link = v) ∧
      ∀ r3 ∈ (updateRecipe
          ⟨[], [], [], [], [⟨3, 7, "T", 1, 100, "", "", none, [], []⟩],
           0, 0, 0, 4, 0⟩
          7 3 ⟨some "New", none, none, none, none, some 9, none, none⟩).2.recipes,
        r3.id = 3 → r3.user = 7 → r3 = r2 :=
  ⟨by decide, by decide, by decide,
   update_ignores_owner_field
     ⟨[], [], [], [], [⟨3, 7, "T", 1, 100, "", "", none, [], []⟩], 0, 0, 0, 4, 0⟩
     7 3 9 ⟨some "New", none, none, none, none, some 9, none, none⟩
     ⟨3, 7, "T", 1, 100, "", "", none, [], []⟩
     (by decide) (by decide) (by decide)⟩

/-- C9: uploading a payload the image validator rejects yields the 400
InvalidImage error and leaves the whole store — in particular the
recipe's stored image reference — unchanged; a payload it accepts
succeeds and replaces any prior image, on the returned recipe and on the
stored row. -/
theorem upload_image_contract (s : AppState) (vi : List Nat → Bool)
    (caller rid : Nat) (payload : List Nat) (r0 : Recipe)
    (hfound : s.recipes.find? (fun r => r.id == rid && r.user == caller) = some r0) :
    (vi payload = false →
      uploadImage s vi caller rid payload = (Except.error ApiError.badRequest, s) ∧
      ApiError.badRequest.status = 400) ∧
    (vi payload = true →
      ∃ r2, (uploadImage s vi caller rid payload).1 = Except.ok r2 ∧
        r2.image = some payload ∧
        ∀ r3 ∈ (uploadImage s vi caller rid payload).2.recipes,
          r3.id = rid → r3.user = caller → r3.image = some payload) := by
  unfold uploadImage
  rw [hfound]
  dsimp only
  constructor
  · intro hbad
    rw [hbad]
    exact ⟨rfl, rfl⟩
  · intro hgood
    rw [hgood]
    refine ⟨_, rfl, rfl, ?_⟩
    intro r3 hr3 hid huser
    rw [updated_row_eq _ rid caller s.recipes r3 hr3 hid huser]

/-- C9 witness: with validity modelled as nonemptiness of the byte list,
the empty payload is rejected with 400 leaving the store unchanged, and
a one-byte payload replaces the recipe's prior image. -/
theorem upload_image_contract_witness :
    (List.find? (fun r => r.id == 3 && r.user == 7)
        [(⟨3, 7, "T", 1, 100, "", "", some [9], [], []⟩ : Recipe)] =
      some ⟨3, 7, "T", 1, 100, "", "", some [9], [], []⟩) ∧
    (((fun l : List Nat => !l.isEmpty) [] = false →
      uploadImage
          ⟨[], [], [], [], [⟨3, 7, "T", 1, 100, "", "", some [9], [], []⟩],
           0, 0, 0, 4, 0⟩
          (fun l : List Nat => !l.isEmpty) 7 3 [] =
        (Except.error ApiError.badRequest,
         ⟨[], [], [], [], [⟨3, 7, "T", 1, 100, "", "", some [9], [], []⟩],
          0, 0, 0, 4, 0⟩) ∧
      ApiError.badRequest.status = 400) ∧
     ((fun l : List Nat => !l.isEmpty) [] = true →
      ∃ r2,
        (uploadImage
            ⟨[], [], [], [], [⟨3, 7, "T", 1, 100, "", "", some [9], [], []⟩],
             0, 0, 0, 4, 0⟩
            (fun l : List Nat => !l.isEmpty) 7 3 []).1 = Except.ok r2 ∧
        r2.image = some [] ∧
        ∀ r3 ∈ (uploadImage
            ⟨[], [], [], [], [⟨3, 7, "T", 1, 100, "", "", some [9], [], []⟩],
             0, 0, 0, 4, 0⟩
            (fun l : List Nat => !l.isEmpty) 7 3 []).2.recipes,
          r3.id = 3 → r3.user = 7 → r3.image = some [])) ∧
    (((fun l : List Nat => !l.isEmpty) [2] = false →
      uploadImage
          ⟨[], [], [], [], [⟨3, 7, "T", 1, 100, "", "", some [9], [], []⟩],
           0, 0, 0, 4, 0⟩
          (fun l : List Nat => !l.isEmpty) 7 3 [2] =
        (Except.error ApiError.badRequest,
         ⟨[], [], [], [], [⟨3, 7, "T", 1, 100, "", "", some [9], [], []⟩],
          0, 0, 0, 4, 0⟩) ∧
      ApiError.badRequest.status = 400) ∧
     ((fun l : List Nat => !l.isEmpty) [2] = true →
      ∃ r2,
        (uploadImage
            ⟨[], [], [], [], [⟨3, 7, "T", 1, 100, "", "", some [9], [], []⟩],
             0, 0, 0, 4, 0⟩
            (fun l : List Nat => !l.isEmpty) 7 3 [2]).1 = Except.ok r2 ∧
        r2.image = some [2] ∧
        ∀ r3 ∈ (uploadImage
            ⟨[], [], [], [], [⟨3, 7, "T", 1, 100, "", "", some [9], [], []⟩],
             0, 0, 0, 4, 0⟩
            (fun l : List Nat => !l.isEmpty) 7 3 [2]).2.recipes,
          r3.id = 3 → r3.user = 7 → r3.image = some [2])) :=
  ⟨by decide,
   upload_image_contract
     ⟨[], [], [], [], [⟨3, 7, "T", 1, 100, "", "", some [9], [], []⟩], 0, 0, 0, 4, 0⟩
     (fun l : List Nat => !l.isEmpty) 7 3 []
     ⟨3, 7, "T", 1, 100, "", "", some [9], [], []⟩ (by decide),
   upload_image_contract
     ⟨[], [], [], [], [⟨3, 7, "T", 1, 100, "", "", some [9], [], []⟩], 0, 0, 0, 4, 0⟩
     (fun l : List Nat => !l.isEmpty) 7 3 [2]
     ⟨3, 7, "T", 1, 100, "", "", some [9], [], []⟩ (by decide)⟩

/-- When table ids are unique, a lookup keyed on the id of a row owned
by someone other than the caller finds nothing. -/
theorem find_owned_eq_none {α : Type} (idOf ownerOf : α → Nat) (l : List α)
    (hnd : (l.map idOf).Nodup) (r : α) (hr : r ∈ l) (i a : Nat)
    (hid : idOf r = i) (hown : ownerOf r ≠ a) :
    l.find? (fun x => idOf x == i && ownerOf x == a) = none := by
  rw [List.find?_eq_none]
  intro x hx
  simp only [Bool.and_eq_true, beq_iff_eq, not_and]
  intro hxi hxa
  have hxr : x = r := List.inj_on_of_nodup_map hnd hx hr (by rw [hxi, hid])
  rw [hxr] at hxa
  exact hown hxa

/-! ### C2 -/

/-- C2: with unique row ids, every recipe, tag, or ingredient row owned
by a user other than the authenticated caller is untouchable through the
API — retrieve, update, and delete addressed by its id answer NotFound
(HTTP 404) and return the store unchanged — and the caller's list
endpoints never include it. -/
theorem cross_user_rows_invisible (s : AppState) (a b i : Nat) (hab : a ≠ b)
    (p : RecipeUpdatePayload) (nm : String)
    (hR : (s.recipes.map Recipe.id).Nodup)
    (hT : (s.tags.map CatalogItem.id).Nodup)
    (hI : (s.ingredients.map CatalogItem.id).Nodup) :
    ApiError.notFound.status = 404 ∧
    (∀ r ∈ s.recipes, r.id = i → r.user = b →
        retrieveRecipe s a i = Except.error ApiError.notFound ∧
        updateRecipe s a i p = (Except.error ApiError.notFound, s) ∧
        deleteRecipe s a i = (Except.error ApiError.notFound, s) ∧
        r ∉ listRecipes s a) ∧
    (∀ t ∈ s.tags, t.id = i → t.user = b →
        retrieveTag s a i = Except.error ApiError.notFound ∧
        updateTag s a i nm = (Except.error ApiError.notFound, s) ∧
        deleteTag s a i = (Except.error ApiError.notFound, s) ∧
        t ∉ listTags s a) ∧
    (∀ t ∈ s.ingredients, t.id = i → t.user = b →
        retrieveIngredient s a i = Except.error ApiError.notFound ∧
        updateIngredient s a i nm = (Except.error ApiError.notFound, s) ∧
        deleteIngredient s a i = (Except.error ApiError.notFound, s) ∧
        t ∉ listIngredients s a) := by
  refine ⟨rfl, ?_, ?_, ?_⟩
  · intro r hr hid huser
    have hown : Recipe.user r ≠ a := by rw [huser]; exact Ne.symm hab
    have hnone := find_owned_eq_none Recipe.id Recipe.user s.recipes hR r hr i a hid hown
    refine ⟨?_, ?_, ?_, ?_⟩
    · unfold retrieveRecipe
      rw [hnone]
    · unfold updateRecipe
      rw [hnone]
    · unfold deleteRecipe
      rw [hnone]
    · intro hmem
      unfold listRecipes at hmem
      have hf := List.mem_filter.mp (List.mem_mergeSort.mp hmem)
      simp only [beq_iff_eq] at hf
      rw [huser] at hf
      exact Ne.symm hab hf.2
  · intro t ht hid huser
    have hown : CatalogItem.user t ≠ a := by rw [huser]; exact Ne.symm hab
    have hnone := find_owned_eq_none CatalogItem.id CatalogItem.user s.tags hT t ht i a hid hown
    refine ⟨?_, ?_, ?_, ?_⟩
    · unfold retrieveTag catalogRetrieve
      rw [hnone]
    · unfold updateTag catalogUpdate
      rw [hnone]
    · unfold deleteTag catalogDelete
      rw [hnone]
    · intro hmem
      unfold listTags catalogList at hmem
      have hf := List.mem_filter.mp (List.mem_mergeSort.mp hmem)
      simp only [beq_iff_eq] at hf
      rw [huser] at hf
      exact Ne.symm hab hf.2
  · intro t ht hid huser
    have hown : CatalogItem.user t ≠ a := by rw [huser]; exact Ne.symm hab
    have hnone := find_owned_eq_none CatalogItem.id CatalogItem.user s.ingredients hI t ht i a hid hown
    refine ⟨?_, ?_, ?_, ?_⟩
    · unfold retrieveIngredient catalogRetrieve
      rw [hnone]
    · unfold updateIngredient catalogUpdate
      rw [hnone]
    · unfold deleteIngredient catalogDelete
      rw [hnone]
    · intro hmem
      unfold listIngredients catalogList at hmem
      have hf := List.mem_filter.mp (List.mem_mergeSort.mp hmem)
      simp only [beq_iff_eq] at hf
      rw [huser] at hf
      exact Ne.symm hab hf.2

/-- C2 witness: a store where user 9 owns one recipe, one tag and one
ingredient, all with id 1; caller 7 gets NotFound on every direct access
and sees none of the rows in any list. -/
theorem cross_user_rows_invisible_witness :
    ((7 : Nat) ≠ 9) ∧
    (([(⟨1, 9, "T", 1, 100, "", "", none, [], []⟩ : Recipe)].map Recipe.id).Nodup) ∧
    (([(⟨1, 9, "B"⟩ : CatalogItem)].map CatalogItem.id).Nodup) ∧
    (([(⟨1, 9, "C"⟩ : CatalogItem)].map CatalogItem.id).Nodup) ∧
    (ApiError.notFound.status = 404 ∧
     (∀ r ∈ (⟨[], [], [⟨1, 9, "B"⟩], [⟨1, 9, "C"⟩],
          [⟨1, 9, "T", 1, 100, "", "", none, [], []⟩], 0, 5, 5, 5, 0⟩ :
            AppState).recipes, r.id = 1 → r.user = 9 →
        retrieveRecipe ⟨[], [], [⟨1, 9, "B"⟩], [⟨1, 9, "C"⟩],
          [⟨1, 9, "T", 1, 100, "", "", none, [], []⟩], 0, 5, 5, 5, 0⟩ 7 1 =
          Except.error ApiError.notFound ∧
        updateRecipe ⟨[], [], [⟨1, 9, "B"⟩], [⟨1, 9, "C"⟩],
          [⟨1, 9, "T", 1, 100, "", "", none, [], []⟩], 0, 5, 5, 5, 0⟩ 7 1
          ⟨none, none, none, none, none, none, none, none⟩ =
          (Except.error ApiError.notFound,
           ⟨[], [], [⟨1, 9, "B"⟩], [⟨1, 9, "C"⟩],
            [⟨1, 9, "T", 1, 100, "", "", none, [], []⟩], 0, 5, 5, 5, 0⟩) ∧
        deleteRecipe ⟨[], [], [⟨1, 9, "B"⟩], [⟨1, 9, "C"⟩],
          [⟨1, 9, "T", 1, 100, "", "", none, [], []⟩], 0, 5, 5, 5, 0⟩ 7 1 =
          (Except.error ApiError.notFound,
           ⟨[], [], [⟨1, 9, "B"⟩], [⟨1, 9, "C"⟩],
            [⟨1, 9, "T", 1, 100, "", "", none, [], []⟩], 0, 5, 5, 5, 0⟩) ∧
        r ∉ listRecipes ⟨[], [], [⟨1, 9, "B"⟩], [⟨1, 9, "C"⟩],
          [⟨1, 9, "T", 1, 100, "", "", none, [], []⟩], 0, 5, 5, 5, 0⟩ 7) ∧
     (∀ t ∈ (⟨[], [], [⟨1, 9, "B"⟩], [⟨1, 9, "C"⟩],
          [⟨1, 9, "T", 1, 100, "", "", none, [], []⟩], 0, 5, 5, 5, 0⟩ :
            AppState).tags, t.id = 1 → t.user = 9 →
        retrieveTag ⟨[], [], [⟨1, 9, "B"⟩], [⟨1, 9, "C"⟩],
          [⟨1, 9, "T", 1, 100, "", "", none, [], []⟩], 0, 5, 5, 5, 0⟩ 7 1 =
          Except.error ApiError.notFound ∧
        updateTag ⟨[], [], [⟨1, 9, "B"⟩], [⟨1, 9, "C"⟩],
          [⟨1, 9, "T", 1, 100, "", "", none, [], []⟩], 0, 5, 5, 5, 0⟩ 7 1 "X" =
          (Except.error ApiError.notFound,
           ⟨[], [], [⟨1, 9, "B"⟩], [⟨1, 9, "C"⟩],
            [⟨1, 9, "T", 1, 100, "", "", none, [], []⟩], 0, 5, 5, 5, 0⟩) ∧
        deleteTag ⟨[], [], [⟨1, 9, "B"⟩], [⟨1, 9, "C"⟩],
          [⟨1, 9, "T", 1, 100, "", "", none, [], []⟩], 0, 5, 5, 5, 0⟩ 7 1 =
          (Except.error ApiError.notFound,
           ⟨[], [], [⟨1, 9, "B"⟩], [⟨1, 9, "C"⟩],
            [⟨1, 9, "T", 1, 100, "", "", none, [], []⟩], 0, 5, 5, 5, 0⟩) ∧
        t ∉ listTags ⟨[], [], [⟨1, 9, "B"⟩], [⟨1, 9, "C"⟩],
          [⟨1, 9, "T", 1, 100, "", "", none, [], []⟩], 0, 5, 5, 5, 0⟩ 7) ∧
     (∀ t ∈ (⟨[], [], [⟨1, 9, "B"⟩], [⟨1, 9, "C"⟩],
          [⟨1, 9, "T", 1, 100, "", "", none, [], []⟩], 0, 5, 5, 5, 0⟩ :
            AppState).ingredients, t.id = 1 → t.user = 9 →
        retrieveIngredient ⟨[], [], [⟨1, 9, "B"⟩], [⟨1, 9, "C"⟩],
          [⟨1, 9, "T", 1, 100, "", "", none, [], []⟩], 0, 5, 5, 5, 0⟩ 7 1 =
          Except.error ApiError.notFound ∧
        updateIngredient ⟨[], [], [⟨1, 9, "B"⟩], [⟨1, 9, "C"⟩],
          [⟨1, 9, "T", 1, 100, "", "", none, [], []⟩], 0, 5, 5, 5, 0⟩ 7 1 "X" =
          (Except.error ApiError.notFound,
           ⟨[], [], [⟨1, 9, "B"⟩], [⟨1, 9, "C"⟩],
            [⟨1, 9, "T", 1, 100, "", "", none, [], []⟩], 0, 5, 5, 5, 0⟩) ∧
        deleteIngredient ⟨[], [], [⟨1, 9, "B"⟩], [⟨1, 9, "C"⟩],
          [⟨1, 9, "T", 1, 100, "", "", none, [], []⟩], 0, 5, 5, 5, 0⟩ 7 1 =
          (Except.error ApiError.notFound,
           ⟨[], [], [⟨1, 9, "B"⟩], [⟨1, 9, "C"⟩],
            [⟨1, 9, "T", 1, 100, "", "", none, [], []⟩], 0, 5, 5, 5, 0⟩) ∧
        t ∉ listIngredients ⟨[], [], [⟨1, 9, "B"⟩], [⟨1, 9, "C"⟩],
          [⟨1, 9, "T", 1, 100, "", "", none, [], []⟩], 0, 5, 5, 5, 0⟩ 7)) :=
  ⟨by decide, by decide, by decide, by decide,
   cross_user_rows_invisible
     ⟨[], [], [⟨1, 9, "B"⟩], [⟨1, 9, "C"⟩],
      [⟨1, 9, "T", 1, 100, "", "", none, [], []⟩], 0, 5, 5, 5, 0⟩
     7 9 1 (by decide) ⟨none, none, none, none, none, none, none, none⟩ "X"
     (by decide) (by decide) (by decide)⟩

/-- The reconciler never drops catalog rows: every row present before a
pass is present after it. -/
theorem mem_reconcile_cat_of_mem (owner : Nat) (names : List String) :
    ∀ (cat : List CatalogItem) (nextId : Nat) (t : CatalogItem), t ∈ cat →
      t ∈ (reconcile cat nextId owner names).2.1 := by
  induction names with
  | nil =>
    intro cat nextId t ht
    simpa [reconcile] using ht
  | cons nm rest ih =>
    intro cat nextId t ht
    cases hf : cat.find? (fun x => x.user == owner && x.name == nm) with
    | some t0 =>
      simpa [reconcile, getOrCreate, hf] using ih cat nextId t ht
    | none =>
      simpa [reconcile, getOrCreate, hf] using
        ih (cat ++ [⟨nextId, owner, nm⟩]) (nextId + 1) t (List.mem_append_left _ ht)

/-- Every requested name ends up resolved: the final catalog holds an
owner-owned row with that exact name whose id is among the resolved
ids. -/
theorem reconcile_resolves (owner : Nat) (names : List String) :
    ∀ (cat : List CatalogItem) (nextId : Nat), ∀ nm ∈ names,
      ∃ t, t ∈ (reconcile cat nextId owner names).2.1 ∧ t.user = owner ∧
        t.name = nm ∧ t.id ∈ (reconcile cat nextId owner names).1 := by
  induction names with
  | nil =>
    intro cat nextId nm hnm
    exact absurd hnm (List.not_mem_nil nm)
  | cons nm0 rest ih =>
    intro cat nextId nm hnm
    cases hf : cat.find? (fun x => x.user == owner && x.name == nm0) with
    | some t0 =>
      rcases List.mem_cons.mp hnm with h | h
      · subst h
        have hp := List.find?_some hf
        have hmem := List.mem_of_find?_eq_some hf
        simp only [Bool.and_eq_true, beq_iff_eq] at hp
        refine ⟨t0, ?_, hp.1, hp.2, ?_⟩
        · simp only [reconcile, getOrCreate, hf]
          exact mem_reconcile_cat_of_mem owner rest cat nextId t0 hmem
        · simp [reconcile, getOrCreate, hf]
      · obtain ⟨t, h1, h2, h3, h4⟩ := ih cat nextId nm h
        refine ⟨t, ?_, h2, h3, ?_⟩
        · simpa [reconcile, getOrCreate, hf] using h1
        · simp only [reconcile, getOrCreate, hf, List.mem_cons]
          exact Or.inr h4
    | none =>
      rcases List.mem_cons.mp hnm with h | h
      · subst h
        refine ⟨⟨nextId, owner, nm⟩, ?_, rfl, rfl, ?_⟩
        · simp only [reconcile, getOrCreate, hf]
          exact mem_reconcile_cat_of_mem owner rest _ _ _
            (List.mem_append_right _ (List.mem_singleton_self _))
        · simp [reconcile, getOrCreate, hf]
      · obtain ⟨t, h1, h2, h3, h4⟩ :=
          ih (cat ++ [⟨nextId, owner, nm0⟩]) (nextId + 1) nm h
        refine ⟨t, ?_, h2, h3, ?_⟩
        · simpa [reconcile, getOrCreate, hf] using h1
        · simp only [reconcile, getOrCreate, hf, List.mem_cons]
          exact Or.inr h4

/-- The reconciler creates a row for an (owner, name) pair exactly when
the owner had no row of that exact name and the name was requested;
otherwise the multiplicity of the pair is untouched. -/
theorem reconcile_countP (owner : Nat) (names : List String) :
    ∀ (cat : List CatalogItem) (nextId : Nat) (nm : String),
      (reconcile cat nextId owner names).2.1.countP
          (fun t => t.user == owner && t.name == nm) =
        if cat.countP (fun t => t.user == owner && t.name == nm) = 0 ∧ nm ∈ names
        then 1
        else cat.countP (fun t => t.user == owner && t.name == nm) := by
  induction names with
  | nil =>
    intro cat nextId nm
    simp [reconcile]
  | cons nm0 rest ih =>
    intro cat nextId nm
    cases hf : cat.find? (fun x => x.user == owner && x.name == nm0) with
    | some t0 =>
      have hne : cat.countP (fun t => t.user == owner && t.name == nm0) ≠ 0 := by
        intro hzero
        exact absurd (List.find?_some hf)
          (List.countP_eq_zero.mp hzero t0 (List.mem_of_find?_eq_some hf))
      have hred : (reconcile cat nextId owner (nm0 :: rest)).2.1 =
          (reconcile cat nextId owner rest).2.1 := by
        simp [reconcile, getOrCreate, hf]
      rw [hred, ih cat nextId nm]
      by_cases hnm : nm = nm0
      · subst hnm
        simp [hne]
      · simp [List.mem_cons, hnm]
    | none =>
      have hzero : cat.countP (fun t => t.user == owner && t.name == nm0) = 0 :=
        List.countP_eq_zero.mpr (List.find?_eq_none.mp hf)
      have hred : (reconcile cat nextId owner (nm0 :: rest)).2.1 =
          (reconcile (cat ++ [⟨nextId, owner, nm0⟩]) (nextId + 1) owner rest).2.1 := by
        simp [reconcile, getOrCreate, hf]
      rw [hred, ih (cat ++ [(⟨nextId, owner, nm0⟩ : CatalogItem)]) (nextId + 1) nm,
        List.countP_append]
      by_cases hnm : nm = nm0
      · subst hnm
        simp [hzero, List.countP_cons, List.mem_cons]
      · have hsing : List.countP (fun t => t.user == owner && t.name == nm)
            [(⟨nextId, owner, nm0⟩ : CatalogItem)] = 0 := by
          simp [List.countP_cons, beq_iff_eq, Ne.symm hnm]
        rw [hsing]
        simp [List.mem_cons, hnm]

/-- Every catalog row present after a reconciler pass either predates
the pass or is an owner-owned row bearing one of the requested names. -/
theorem reconcile_creates_only_requested (owner : Nat) (names : List String) :
    ∀ (cat : List CatalogItem) (nextId : Nat) (t : CatalogItem),
      t ∈ (reconcile cat nextId owner names).2.1 →
      t ∈ cat ∨ (t.user = owner ∧ t.name ∈ names) := by
  induction names with
  | nil =>
    intro cat nextId t ht
    left
    simpa [reconcile] using ht
  | cons nm0 rest ih =>
    intro cat nextId t ht
    cases hf : cat.find? (fun x => x.user == owner && x.name == nm0) with
    | some t0 =>
      have ht2 : t ∈ (reconcile cat nextId owner rest).2.1 := by
        simpa [reconcile, getOrCreate, hf] using ht
      rcases ih cat nextId t ht2 with h | ⟨h1, h2⟩
      · exact Or.inl h
      · exact Or.inr ⟨h1, List.mem_cons_of_mem _ h2⟩
    | none =>
      have ht2 : t ∈
          (reconcile (cat ++ [⟨nextId, owner, nm0⟩]) (nextId + 1) owner rest).2.1 := by
        simpa [reconcile, getOrCreate, hf] using ht
      rcases ih _ _ t ht2 with h | ⟨h1, h2⟩
      · rcases List.mem_append.mp h with h3 | h3
        · exact Or.inl h3
        · rcases List.mem_singleton.mp h3 with rfl
          exact Or.inr ⟨rfl, List.mem_cons_self _ _⟩
      · exact Or.inr ⟨h1, List.mem_cons_of_mem _ h2⟩

/-- One reconciler pass satisfies the full find-or-create contract. -/
theorem reconcile_outcome (cat : List CatalogItem) (nextId owner : Nat)
    (names : List String) :
    FindOrCreateOutcome cat (reconcile cat nextId owner names).2.1
      (reconcile cat nextId owner names).1.dedup owner names := by
  refine ⟨?_, fun nm => reconcile_countP owner names cat nextId nm,
    fun t ht => reconcile_creates_only_requested owner names cat nextId t ht⟩
  intro nm hnm
  obtain ⟨t, h1, h2, h3, h4⟩ := reconcile_resolves owner names cat nextId nm hnm
  exact ⟨t, h1, h2, h3, List.mem_dedup.mpr h4⟩

/-! ### C1 -/

/-- C1: every recipe create or update whose payload carries an inline
tag or ingredient name list resolves each name by exact case-sensitive
lookup among the caller's catalog rows, creating a new {owner, name} row
only when no such row exists, and associates the written recipe with a
row of each requested name. -/
theorem recipe_write_find_or_create (s : AppState) (owner rid : Nat)
    (pc : RecipePayload) (pu : RecipeUpdatePayload)
    (tnames inames utnames uinames : List String)
    (hct : pc.tags = some tnames) (hci : pc.ingredients = some inames)
    (hut : pu.tags = some utnames) (hui : pu.ingredients = some uinames)
    (r0 : Recipe)
    (hfound : s.recipes.find? (fun r => r.id == rid && r.user == owner) = some r0) :
    FindOrCreateOutcome s.tags (createRecipe s owner pc).2.tags
      (createRecipe s owner pc).1.tags owner tnames ∧
    FindOrCreateOutcome s.ingredients (createRecipe s owner pc).2.ingredients
      (createRecipe s owner pc).1.ingredients owner inames ∧
    ∃ r2, (updateRecipe s owner rid pu).1 = Except.ok r2 ∧
      FindOrCreateOutcome s.tags (updateRecipe s owner rid pu).2.tags
        r2.tags owner utnames ∧
      FindOrCreateOutcome s.ingredients (updateRecipe s owner rid pu).2.ingredients
        r2.ingredients owner uinames := by
  refine ⟨?_, ?_, ?_⟩
  · have h := reconcile_outcome s.tags s.nextTagId owner tnames
    simpa [createRecipe, hct] using h
  · have h := reconcile_outcome s.ingredients s.nextIngredientId owner inames
    simpa [createRecipe, hci] using h
  · unfold updateRecipe
    rw [hfound]
    dsimp only
    rw [hut, hui]
    dsimp only
    refine ⟨_, rfl, ?_, ?_⟩
    · exact reconcile_outcome s.tags s.nextTagId owner utnames
    · exact reconcile_outcome s.ingredients s.nextIngredientId owner uinames

/-- Sample store exercising the reconciler: user 7 already owns the tag
"Asian" (id 5), the ingredient "Chicken" (id 2) and one recipe (id 3). -/
def c1State : AppState :=
  ⟨[], [], [⟨5, 7, "Asian"⟩], [⟨2, 7, "Chicken"⟩],
   [⟨3, 7, "T", 1, 100, "", "", none, [], []⟩], 0, 6, 3, 4, 0⟩

/-- Sample create payload carrying one new and one existing tag name and
one new and one existing ingredient name. -/
def c1Create : RecipePayload :=
  ⟨"Katsu", 10, 710, none, none, some ["Japanese", "Asian"],
   some ["Chicken", "Rice"]⟩

/-- Sample update payload carrying the same inline name lists. -/
def c1Update : RecipeUpdatePayload :=
  ⟨none, none, none, none, none, none, some ["Japanese", "Asian"],
   some ["Chicken", "Rice"]⟩

/-- C1 witness: creating a recipe with tags ["Japanese", "Asian"] when
user 7 already owns "Asian" satisfies the find-or-create contract and
concretely leaves the user with exactly 2 tags (not 3), the recipe
associated with both; likewise for ingredients and on update. -/
theorem recipe_write_find_or_create_witness :
    (c1Create.tags = some ["Japanese", "Asian"]) ∧
    (c1Create.ingredients = some ["Chicken", "Rice"]) ∧
    (c1Update.tags = some ["Japanese", "Asian"]) ∧
    (c1Update.ingredients = some ["Chicken", "Rice"]) ∧
    (c1State.recipes.find? (fun r => r.id == 3 && r.user == 7) =
      some ⟨3, 7, "T", 1, 100, "", "", none, [], []⟩) ∧
    (FindOrCreateOutcome c1State.tags (createRecipe c1State 7 c1Create).2.tags
        (createRecipe c1State 7 c1Create).1.tags 7 ["Japanese", "Asian"] ∧
     FindOrCreateOutcome c1State.ingredients
        (createRecipe c1State 7 c1Create).2.ingredients
        (createRecipe c1State 7 c1Create).1.ingredients 7 ["Chicken", "Rice"] ∧
     ∃ r2, (updateRecipe c1State 7 3 c1Update).1 = Except.ok r2 ∧
       FindOrCreateOutcome c1State.tags
         (updateRecipe c1State 7 3 c1Update).2.tags r2.tags 7
         ["Japanese", "Asian"] ∧
       FindOrCreateOutcome c1State.ingredients
         (updateRecipe c1State 7 3 c1Update).2.ingredients r2.ingredients 7
         ["Chicken", "Rice"]) ∧
    ((createRecipe c1State 7 c1Create).2.tags.filter
        (fun t => t.user == 7)).length = 2 ∧
    (createRecipe c1State 7 c1Create).1.tags.length = 2 :=
  ⟨by decide, by decide, by decide, by decide, by decide,
   recipe_write_find_or_create c1State 7 3 c1Create c1Update
     ["Japanese", "Asian"] ["Chicken", "Rice"]
     ["Japanese", "Asian"] ["Chicken", "Rice"]
     (by decide) (by decide) (by decide) (by decide)
     ⟨3, 7, "T", 1, 100, "", "", none, [], []⟩ (by decide),
   by decide, by decide⟩

/-- A character list without '@' has no local/domain split. -/
theorem splitLocalDomain_of_no_amp (l : List Char) (h : '@' ∉ l) :
    splitLocalDomain l = none := by
  induction l with
  | nil => rfl
  | cons c rest ih =>
    have hc : ¬ c = '@' := fun hc => h (hc ▸ List.mem_cons_self c rest)
    have hr : '@' ∉ rest := fun hr => h (List.mem_cons_of_mem c hr)
    simp [splitLocalDomain, ih hr, hc]

/-- Splitting at the last '@' of `loc ++ '@' :: dom` recovers the local
part and the domain when the domain holds no further '@'. -/
theorem splitLocalDomain_append (loc dom : List Char) (h : '@' ∉ dom) :
    splitLocalDomain (loc ++ '@' :: dom) = some (loc, dom) := by
  induction loc with
  | nil => simp [splitLocalDomain, splitLocalDomain_of_no_amp dom h]
  | cons c rest ih => simp [splitLocalDomain, ih]

/-- Email validity of a split address reduces to the domain holding a
dot. -/
theorem validEmail_split (loc dom : List Char) (h : '@' ∉ dom) :
    validEmail (String.mk (loc ++ '@' :: dom)) = decide ('.' ∈ dom) := by
  simp [validEmail, splitLocalDomain_append loc dom h]

/-- Normalization of a split address keeps the local part verbatim and
lowercases precisely the domain part. -/
theorem normalizeEmail_split (loc dom : List Char) (h : '@' ∉ dom) :
    normalizeEmail (String.mk (loc ++ '@' :: dom)) =
      String.mk (loc ++ '@' :: dom.map Char.toLower) := by
  simp [normalizeEmail, splitLocalDomain_append loc dom h]

/-- ASCII lowercasing produces '.' only from '.' itself. -/
theorem toLower_eq_dot {c : Char} (h : Char.toLower c = '.') : c = '.' := by
  have hkey : ∀ n : Nat, 65 ≤ n → n ≤ 90 → Char.ofNat (n + 32) ≠ '.' := by
    intro n h1 h2
    interval_cases n <;> decide
  unfold Char.toLower at h
  dsimp only at h
  split at h
  · rename_i hc
    exact absurd h (hkey c.toNat hc.1 hc.2)
  · exact h

/-! ### C4 -/

/-- C4: a successful registration stores the email with the local part
exactly as given and the domain part lowercased, and a second otherwise
valid registration whose email differs from the first only in
domain-part letter case fails with EmailTaken and leaves the store — in
particular the user rows — unchanged. -/
theorem register_email_domain_case (s : AppState) (loc d1 d2 : List Char)
    (p1 n1 p2 n2 : String)
    (hd1 : '@' ∉ d1) (hd2 : '@' ∉ d2)
    (hcase : d1.map Char.toLower = d2.map Char.toLower)
    (hp2 : ¬ p2.length < 5)
    (u : User) (s2 : AppState)
    (h : register s (String.mk (loc ++ '@' :: d1)) p1 n1 = (Except.ok u, s2)) :
    u.email = String.mk (loc ++ '@' :: d1.map Char.toLower) ∧
    register s2 (String.mk (loc ++ '@' :: d2)) p2 n2 =
      (Except.error RegisterError.emailTaken, s2) := by
  unfold register at h
  rw [validEmail_split loc d1 hd1] at h
  by_cases hdot1 : '.' ∈ d1
  case neg => simp [hdot1] at h
  rw [decide_eq_true hdot1] at h
  rw [if_neg (by decide : ¬ (true : Bool) = false)] at h
  by_cases hp1 : p1.length < 5
  case pos => rw [if_pos hp1] at h; simp at h
  rw [if_neg hp1] at h
  rw [normalizeEmail_split loc d1 hd1] at h
  by_cases hany : (s.users.any
      (fun x => x.email == String.mk (loc ++ '@' :: d1.map Char.toLower))) = true
  case pos => rw [if_pos hany] at h; simp at h
  rw [if_neg hany] at h
  simp only [Prod.mk.injEq, Except.ok.injEq] at h
  obtain ⟨hu, hs2⟩ := h
  subst hu
  subst hs2
  refine ⟨rfl, ?_⟩
  have hdot2 : '.' ∈ d2 := by
    have h1 : Char.toLower '.' ∈ d1.map Char.toLower :=
      List.mem_map_of_mem _ hdot1
    rw [hcase] at h1
    rcases List.mem_map.mp h1 with ⟨c, hc, hceq⟩
    have hcdot : Char.toLower c = '.' := by
      rw [hceq]
      decide
    rw [toLower_eq_dot hcdot] at hc
    exact hc
  unfold register
  rw [validEmail_split loc d2 hd2, decide_eq_true hdot2]
  rw [if_neg (by decide : ¬ (true : Bool) = false)]
  rw [if_neg hp2]
  rw [normalizeEmail_split loc d2 hd2]
  rw [← hcase]
  have hany2 : (((s.users ++
      [⟨s.nextUserId, String.mk (loc ++ '@' :: d1.map Char.toLower),
        hashPassword p1, n1⟩]) : List User).any
      (fun x => x.email == String.mk (loc ++ '@' :: d1.map Char.toLower))) = true := by
    simp
  rw [if_pos hany2]

/-- C4 witness: registering "a@B.c" stores "a@b.c" (local part verbatim,
domain lowercased) and a second registration as "a@b.C" fails with
EmailTaken against the unchanged store. -/
theorem register_email_domain_case_witness :
    ('@' ∉ ['B', '.', 'c']) ∧
    ('@' ∉ ['b', '.', 'C']) ∧
    (['B', '.', 'c'].map Char.toLower = ['b', '.', 'C'].map Char.toLower) ∧
    (¬ ("secret7".length < 5)) ∧
    (register ⟨[], [], [], [], [], 0, 0, 0, 0, 0⟩
        (String.mk (['a'] ++ '@' :: ['B', '.', 'c'])) "pass123" "N" =
      (Except.ok ⟨0, "a@b.c", hashPassword "pass123", "N"⟩,
       ⟨[⟨0, "a@b.c", hashPassword "pass123", "N"⟩], [], [], [], [],
        1, 0, 0, 0, 0⟩)) ∧
    ((⟨0, "a@b.c", hashPassword "pass123", "N"⟩ : User).email =
      String.mk (['a'] ++ '@' :: ['B', '.', 'c'].map Char.toLower) ∧
     register ⟨[⟨0, "a@b.c", hashPassword "pass123", "N"⟩], [], [], [], [],
          1, 0, 0, 0, 0⟩
        (String.mk (['a'] ++ '@' :: ['b', '.', 'C'])) "secret7" "M" =
      (Except.error RegisterError.emailTaken,
       ⟨[⟨0, "a@b.c", hashPassword "pass123", "N"⟩], [], [], [], [],
        1, 0, 0, 0, 0⟩)) :=
  ⟨by decide, by decide, by decide, by decide, by decide,
   register_email_domain_case ⟨[], [], [], [], [], 0, 0, 0, 0, 0⟩
     ['a'] ['B', '.', 'c'] ['b', '.', 'C'] "pass123" "N" "secret7" "M"
     (by decide) (by decide) (by decide) (by decide)
     ⟨0, "a@b.c", hashPassword "pass123", "N"⟩
     ⟨[⟨0, "a@b.c", hashPassword "pass123", "N"⟩], [], [], [], [], 1, 0, 0, 0, 0⟩
     (by decide)⟩

end RecipeApp
